import Mathlib

/-!
Verification of the VM-evacuation event handler
(`eventhandlers/nova_evacuate_vms.py`) against its design specification.

The development shallowly embeds the evacuation core:
* the data model (hypervisors, flavors, VMs, server groups) fetched from the
  cloud inventory,
* the target-host selection function `_get_target_host` (here `getTargetHost`),
* the evacuation orchestration loop with its status-polling phase
  (`evacStep`, `vmBlock`, `pollWhile`),
* the top-level run from the VM-listing step onward (`runFromListing`).

Python exceptions are modelled with `Except String`; a `try`/`except` block
becomes a `match` on the embedded computation.  Python dict iteration and
`dict.keys()[0]` are modelled by association-list order (the hypervisor
listing order); `set` is modelled as a first-occurrence-deduplicated list.
-/

/-- A hypervisor record as returned by nova `hypervisors.list()`:
hostname, liveness state, declared vCPU and memory capacity. -/
structure Hypervisor where
  hypervisor_hostname : String
  state : String
  vcpus : Nat
  memory_mb : Nat
deriving DecidableEq, Repr

/-- A flavor: resource shape (vCPU count and RAM in MB), keyed by id. -/
structure Flavor where
  id : String
  vcpus : Nat
  ram : Nat
deriving DecidableEq, Repr

/-- A server (VM) record: id, display name, flavor id, the hypervisor
hostname it currently runs on (`OS-EXT-SRV-ATTR:hypervisor_hostname`),
and its lifecycle status. -/
structure VM where
  id : String
  name : String
  flavorId : String
  hostname : String
  status : String
deriving DecidableEq, Repr

/-- A server group: placement policies and member VM ids. -/
structure ServerGroup where
  id : String
  policies : List String
  members : List String
deriving DecidableEq, Repr

/-- One live view of the cloud, fetched inside a single `_get_target_host`
call: `nova.servers.list()`, `nova.hypervisors.list()`,
`nova.server_groups.list()`.  The flavor dictionary is fetched once per run
and passed separately, as in the script. -/
structure Cloud where
  servers : List VM
  hypervisors : List Hypervisor
  server_groups : List ServerGroup
deriving DecidableEq, Repr

/-- Lookup in the `vms` dictionary built from `nova.servers.list()`
(keyed by VM id). -/
def findVM (allvms : List VM) (vid : String) : Option VM :=
  allvms.find? (fun v => v.id == vid)

/-- Lookup in the `flavors` dictionary built from `nova.flavors.list()`
(keyed by flavor id). -/
def findFlavor (flavors : List Flavor) (fid : String) : Option Flavor :=
  flavors.find? (fun f => f.id == fid)

/-- Steps 1–2 of `_get_target_host`: build the `targets` dictionary from the
hypervisor listing, keeping hosts whose `state` is `up` and whose declared
capacity meets the VM flavor.  The flavor dictionary lookup
`flavors[vm.flavor['id']]` happens only after the liveness check, so a
missing flavor raises (models `KeyError`) only when some live host exists. -/
def buildTargets (flavors : List Flavor) (vm : VM) :
    List Hypervisor → Except String (List Hypervisor)
  | [] => .ok []
  | h :: rest =>
    if h.state != "up" then buildTargets flavors vm rest
    else
      match findFlavor flavors vm.flavorId with
      | none => .error "KeyError: flavor id"
      | some fl =>
        if fl.vcpus > h.vcpus || fl.ram > h.memory_mb then
          buildTargets flavors vm rest
        else
          (buildTargets flavors vm rest).map (fun ts => h :: ts)

/-- Python `set.add`: append only if absent, keeping first-occurrence order. -/
def insertNew (x : String) (xs : List String) : List String :=
  if xs.contains x then xs else xs ++ [x]

/-- The affinity member scan: walk the group members, accumulating the set of
current hosts (`current_host_group`) and the summed vCPUs and RAM of the
member flavors.  A missing VM or flavor raises (models `KeyError`). -/
def scanAffinityAux (allvms : List VM) (flavors : List Flavor) :
    List String → List String → Nat → Nat →
    Except String (List String × Nat × Nat)
  | [], acc, vc, mem => .ok (acc, vc, mem)
  | m :: rest, acc, vc, mem =>
    match findVM allvms m with
    | none => .error "KeyError: vm id"
    | some v =>
      match findFlavor flavors v.flavorId with
      | none => .error "KeyError: flavor id"
      | some fl =>
        scanAffinityAux allvms flavors rest
          (insertNew v.hostname acc) (vc + fl.vcpus) (mem + fl.ram)

/-- Entry point of the affinity member scan (empty accumulators). -/
def scanAffinity (allvms : List VM) (flavors : List Flavor) (ms : List String) :
    Except String (List String × Nat × Nat) :=
  scanAffinityAux allvms flavors ms [] 0 0

/-- The anti-affinity member scan: the list `anti_affinity_host_group` of the
current hosts of all group members, in member order, duplicates kept. -/
def antiHosts (allvms : List VM) : List String → Except String (List String)
  | [] => .ok []
  | m :: rest =>
    match findVM allvms m with
    | none => .error "KeyError: vm id"
    | some v => (antiHosts allvms rest).map (fun hs => v.hostname :: hs)

/-- Line 216 of the script: `return None if not targets else targets.keys()[0]`. -/
def defaultTarget (targets : List Hypervisor) : Option String :=
  (targets.head?).map (fun h => h.hypervisor_hostname)

/-- The body of `_get_target_host` inside its `try` block.  `ch` is
`args.compute_host`, the failed host being evacuated.

Mirrors the source: build `targets`; find the first server group containing
the VM (groups not containing it are skipped with `continue`, and processing
of the first match ends in `return` or `break`); apply the group policy:
* `affinity` with two distinct current hosts: return the set difference with
  the failed host, skipping all eligibility checks;
* `affinity` with one current host (first mover): return the first target
  whose capacity strictly exceeds the group aggregate; when none does,
  control falls through the `break` to the final `targets.keys()[0]` line;
* `anti-affinity`: return the first target not occupied by a member, else
  `None`;
* any other cardinality or policy falls through the `break` to the final
  line.  `group.policies[0]` on an empty policy list raises `IndexError`. -/
def getTargetHostE (ch : String) (flavors : List Flavor) (c : Cloud) (vm : VM) :
    Except String (Option String) :=
  match buildTargets flavors vm c.hypervisors with
  | .error e => .error e
  | .ok targets =>
    match c.server_groups.find? (fun g => g.members.contains vm.id) with
    | none => .ok (defaultTarget targets)
    | some g =>
      match g.policies.head? with
      | none => .error "IndexError: list index out of range"
      | some p =>
        if p = "affinity" then
          match scanAffinity c.servers flavors g.members with
          | .error e => .error e
          | .ok (chg, vcpus, memory) =>
            if chg.length = 2 then
              .ok ((chg.filter (fun x => x != ch)).head?)
            else if chg.length = 1 then
              match targets.find?
                  (fun h => decide (vcpus < h.vcpus) && decide (memory < h.memory_mb)) with
              | some h => .ok (some h.hypervisor_hostname)
              | none => .ok (defaultTarget targets)
            else .ok (defaultTarget targets)
        else if p = "anti-affinity" then
          match antiHosts c.servers g.members with
          | .error e => .error e
          | .ok hg =>
            match targets.find? (fun h => !(hg.contains h.hypervisor_hostname)) with
            | some h => .ok (some h.hypervisor_hostname)
            | none => .ok none
        else .ok (defaultTarget targets)

/-- `_get_target_host`: the `try` body with its `except` handler, which turns
any raised exception into `None`. -/
def getTargetHost (ch : String) (flavors : List Flavor) (c : Cloud) (vm : VM) :
    Option String :=
  match getTargetHostE ch flavors c vm with
  | .error _ => none
  | .ok r => r

/-! ## The evacuation orchestration loop -/

/-- `cvm[0].status`: indexing the fetched server list raises `IndexError`
when the list is empty. -/
def firstStatus (cvm : List String) : Except String String :=
  match cvm with
  | [] => .error "IndexError: list index out of range"
  | st :: _ => .ok st

/-- The external behaviour the per-VM evacuation block observes:
whether `vm.evacuate` raises, the result of the initial
`nova.servers.list(search_opts=\x7b'name': vm.name\x7d)` fetch, the results of
the successive in-loop re-fetches (each an `Except` of the status list of
the returned servers), and the number of times the wall-clock guard
`datetime.now() < start + timedelta(seconds=wait_timeout)` evaluates true
(time is monotone, so the guard holds for a prefix of the checks). -/
structure VMEnv where
  evacResult : Except String Unit
  fetch0 : Except String (List String)
  fetch : Nat → Except String (List String)
  polls : Nat

/-- The `while` polling loop.  Each iteration whose guard holds checks
`cvm[0].status`; on `ACTIVE` the success entry is appended (returned flag
`true`) and the loop breaks with the current `cvm`; otherwise it sleeps,
re-fetches, and loops.  When the guard fails the loop exits with the last
fetched `cvm` and flag `false`. -/
def pollWhile (fetch : Nat → Except String (List String)) :
    Nat → Nat → List String → Except String (Bool × List String)
  | 0, _, cvm => .ok (false, cvm)
  | n + 1, k, cvm => do
    let st ← firstStatus cvm
    if st = "ACTIVE" then .ok (true, cvm)
    else do
      let cvm2 ← fetch k
      pollWhile fetch n (k + 1) cvm2

/-- The `try` body of the per-VM block: issue `vm.evacuate`, do the initial
fetch, run the polling loop. -/
def vmAttempt (env : VMEnv) : Except String (Bool × List String) := do
  let _ ← env.evacResult
  let cvm0 ← env.fetch0
  pollWhile env.fetch env.polls 0 cvm0

/-- The per-VM `try`/`except` block, lines 229–247 of the script: returns the
pairs appended to `results['success']` and `results['failures']` for this VM.
After the loop, `if cvm[0].status != 'ACTIVE'` appends the manual-migration
failure; any exception in the block is caught and recorded as a failure pair
carrying the exception message. -/
def vmBlock (env : VMEnv) (name target : String) :
    List (String × String) × List (String × String) :=
  match vmAttempt env with
  | .error e => ([], [(name, e)])
  | .ok (didSucceed, cvm) =>
    let succs := if didSucceed then [(name, target)] else []
    match firstStatus cvm with
    | .error e => (succs, [(name, e)])
    | .ok st =>
      if st != "ACTIVE" then
        (succs, [(name, "VM is in ERROR or UNKNOWN status, needs manual migration")])
      else (succs, [])

/-- The accumulated report: `results = \x7b'success': [], 'failures': []\x7d`. -/
structure Results where
  success : List (String × String)
  failures : List (String × String)
deriving DecidableEq, Repr

/-- A move command issued to nova: `vm.evacuate(target, True)` records the
VM, the target host, and the `on_shared_storage` flag (the second positional
argument, literally `True` in the script). -/
structure EvacCommand where
  vmId : String
  target : String
  onSharedStorage : Bool
deriving DecidableEq, Repr

/-- Python truthiness of the selected target: `if not target` treats both
`None` and the empty string as absent. -/
def truthy : Option String → Bool
  | none => false
  | some t => t != ""

/-- One iteration of the evacuation loop for one VM: select a target; when
falsy, append the no-target failure and continue; otherwise record the
issued `vm.evacuate(target, True)` command and run the per-VM block. -/
def evacStep (sel : VM → Option String) (envOf : VM → VMEnv)
    (acc : Results × List EvacCommand) (vm : VM) : Results × List EvacCommand :=
  match sel vm with
  | none => ({ acc.1 with failures := acc.1.failures ++ [(vm.name, "Failed to get a host.")] }, acc.2)
  | some t =>
    if t = "" then
      ({ acc.1 with failures := acc.1.failures ++ [(vm.name, "Failed to get a host.")] }, acc.2)
    else
      let (s, f) := vmBlock (envOf vm) vm.name t
      ({ success := acc.1.success ++ s, failures := acc.1.failures ++ f },
       acc.2 ++ [⟨vm.id, t, true⟩])

/-- The whole `for vm in vms` evacuation loop. -/
def runLoop (sel : VM → Option String) (envOf : VM → VMEnv)
    (vms : List VM) (acc : Results × List EvacCommand) :
    Results × List EvacCommand :=
  vms.foldl (evacStep sel envOf) acc

/-- The run-level external environment, from the VM-listing step onward:
the failed host name, the result of
`nova.servers.list(search_opts=\x7b'host': compute_host\x7d)`, the flavor
dictionary fetched once, a fresh cloud view for each per-VM
`_get_target_host` call, and the per-VM evacuation behaviour. -/
structure ScriptEnv where
  compute_host : String
  listVMs : Except String (List VM)
  flavors : List Flavor
  cloudOf : VM → Cloud
  vmEnvOf : VM → VMEnv

/-- Outcome of a run: either the fatal `sys.exit(-1)` taken when the VM
listing fails (no report is built, no command issued), or the final report
and the list of issued move commands. -/
inductive ScriptResult where
  | fatal (msg : String)
  | report (res : Results) (cmds : List EvacCommand)
deriving Repr

/-- The script from line 119 on: list the VMs of the failed host — a failure
here logs and exits before any VM is processed — then run the evacuation
loop over them with empty initial results. -/
def runFromListing (env : ScriptEnv) : ScriptResult :=
  match env.listVMs with
  | .error e =>
    .fatal ("Failed to list VMs for host " ++ env.compute_host ++ " :: " ++ e)
  | .ok vms =>
    let sel := fun vm => getTargetHost env.compute_host env.flavors (env.cloudOf vm) vm
    let (res, cmds) := runLoop sel env.vmEnvOf vms (⟨[], []⟩, [])
    .report res cmds

/-! ## Helper lemmas -/

/-- Every host in the `targets` set built by steps 1–2 comes from the
hypervisor listing and has `state = "up"`. -/
theorem buildTargets_sub (flavors : List Flavor) (vm : VM) :
    ∀ (hyps ts : List Hypervisor), buildTargets flavors vm hyps = Except.ok ts →
      ∀ h ∈ ts, h ∈ hyps ∧ h.state = "up" := by
  intro hyps
  induction hyps with
  | nil =>
    intro ts heq h hmem
    simp only [buildTargets, Except.ok.injEq] at heq
    subst heq
    simp at hmem
  | cons hy rest ih =>
    intro ts heq h hmem
    simp only [buildTargets] at heq
    by_cases hst : (hy.state != "up") = true
    · rw [if_pos hst] at heq
      rcases ih ts heq h hmem with ⟨h1, h2⟩
      exact ⟨List.mem_cons_of_mem _ h1, h2⟩
    · rw [if_neg hst] at heq
      have hup : hy.state = "up" := by
        simpa using hst
      cases hfl : findFlavor flavors vm.flavorId with
      | none => rw [hfl] at heq; cases heq
      | some fl =>
        rw [hfl] at heq
        dsimp only at heq
        by_cases hcap : (fl.vcpus > hy.vcpus || fl.ram > hy.memory_mb) = true
        · rw [if_pos hcap] at heq
          rcases ih ts heq h hmem with ⟨h1, h2⟩
          exact ⟨List.mem_cons_of_mem _ h1, h2⟩
        · rw [if_neg hcap] at heq
          cases hrec : buildTargets flavors vm rest with
          | error e => rw [hrec] at heq; cases heq
          | ok ts' =>
            rw [hrec] at heq
            simp only [Except.map, Except.ok.injEq] at heq
            subst heq
            rcases List.mem_cons.mp hmem with h1 | h1
            · subst h1; exact ⟨List.mem_cons_self _ _, hup⟩
            · rcases ih ts' hrec h h1 with ⟨h2, h3⟩
              exact ⟨List.mem_cons_of_mem _ h2, h3⟩

/-- Every group member found in the server listing contributes its current
host to the `anti_affinity_host_group` list. -/
theorem antiHosts_mem (allvms : List VM) :
    ∀ (ms hg : List String), antiHosts allvms ms = Except.ok hg →
      ∀ m ∈ ms, ∀ v, findVM allvms m = some v → v.hostname ∈ hg := by
  intro ms
  induction ms with
  | nil => intro hg _ m hm; simp at hm
  | cons m0 rest ih =>
    intro hg heq m hm v hv
    simp only [antiHosts] at heq
    cases hfv : findVM allvms m0 with
    | none => rw [hfv] at heq; cases heq
    | some v0 =>
      rw [hfv] at heq
      cases hrec : antiHosts allvms rest with
      | error e => rw [hrec] at heq; cases heq
      | ok hg' =>
        rw [hrec] at heq
        simp only [Except.map, Except.ok.injEq] at heq
        subst heq
        rcases List.mem_cons.mp hm with h1 | h1
        · subst h1
          rw [hfv] at hv
          cases hv
          exact List.mem_cons_self _ _
        · exact List.mem_cons_of_mem _ (ih hg' hrec m h1 v hv)

/-- Every command appended by one loop iteration either was already in the
accumulator or carries `on_shared_storage = True`. -/
theorem evacStep_cmds (sel : VM → Option String) (envOf : VM → VMEnv)
    (acc : Results × List EvacCommand) (vm : VM) :
    ∀ c ∈ (evacStep sel envOf acc vm).2, c ∈ acc.2 ∨ c.onSharedStorage = true := by
  intro c hc
  unfold evacStep at hc
  split at hc
  · exact Or.inl hc
  · split at hc
    · exact Or.inl hc
    · revert hc
      cases vmBlock _ _ _ with
      | mk s f =>
        intro hc
        rcases List.mem_append.mp hc with h1 | h1
        · exact Or.inl h1
        · rcases List.mem_singleton.mp h1 with h2
          subst h2
          exact Or.inr rfl

/-! ## Concrete fixtures used by counterexamples and witnesses -/

/-- A small flavor: 1 vCPU, 1024 MB. -/
def flSmall : Flavor := ⟨"f1", 1, 1024⟩

/-- A groupless VM running on the failed host `compute5`. -/
def vmLoneC1 : VM := ⟨"x", "vmX", "f1", "compute5", "ACTIVE"⟩

/-- A cloud view in which the failed host `compute5` itself still reports
hypervisor state `up` (the service check and the hypervisor listing are
separate queries, so nothing in `_get_target_host` rules this out) and is
the only capacious host. -/
def cloudFailedUp : Cloud := ⟨[vmLoneC1], [⟨"compute5", "up", 8, 16384⟩], []⟩

/-- The 2 vCPU / 4096 MB flavor of the affinity scenario. -/
def flPair : Flavor := ⟨"fA", 2, 4096⟩

/-- First affinity-group member, still on the failed host. -/
def vmAffA : VM := ⟨"a", "vmA", "fA", "compute5", "ACTIVE"⟩

/-- Second affinity-group member, still on the failed host. -/
def vmAffB : VM := ⟨"b", "vmB", "fA", "compute5", "ACTIVE"⟩

/-- Scenario 2 of the spec: both affinity members on `compute5`
(group aggregate 4 vCPU / 8192 MB), sole eligible host `compute1` with
exactly 4 vCPU / 8192 MB. -/
def cloudScenario2 : Cloud := ⟨[vmAffA, vmAffB],
  [⟨"compute1", "up", 4, 8192⟩, ⟨"compute5", "down", 8, 16384⟩],
  [⟨"g1", ["affinity"], ["a", "b"]⟩]⟩

/-- The 2 vCPU / 2048 MB flavor of the aggregate-unsatisfiable scenario. -/
def flSmallPair : Flavor := ⟨"fC", 2, 2048⟩

/-- First member of the aggregate-unsatisfiable affinity scenario. -/
def vmTightA : VM := ⟨"a", "vmA", "fC", "compute5", "ACTIVE"⟩

/-- Second member of the aggregate-unsatisfiable affinity scenario. -/
def vmTightB : VM := ⟨"b", "vmB", "fC", "compute5", "ACTIVE"⟩

/-- Both affinity members on `compute5`; the only live host `compute1`
(3 vCPU / 6000 MB) fits one member's flavor (2 vCPU / 2048 MB) but not the
group aggregate (4 vCPU / 4096 MB): no eligible host satisfies the
aggregate. -/
def cloudTight : Cloud := ⟨[vmTightA, vmTightB],
  [⟨"compute1", "up", 3, 6000⟩],
  [⟨"g1", ["affinity"], ["a", "b"]⟩]⟩

/-- Per-VM behaviour in which ACTIVE is first observed by the fetch made in
the last loop iteration, i.e. only after the wait-timeout has elapsed:
the initial fetch sees `ERROR`, the guard then holds once, and the re-fetch
(checked only after the guard has expired) sees `ACTIVE`. -/
def envLateActive : VMEnv := ⟨.ok (), .ok ["ERROR"], fun _ => .ok ["ACTIVE"], 1⟩

/-- Per-VM behaviour whose status lookup during the polling phase raises. -/
def envPollRaises : VMEnv := ⟨.ok (), .error "boom", fun _ => .ok ["ACTIVE"], 3⟩

/-- Per-VM behaviour of an evacuation that turns ACTIVE within the deadline. -/
def envBecomesActive : VMEnv := ⟨.ok (), .ok ["BUILD"], fun _ => .ok ["ACTIVE"], 4⟩

/-- A run environment whose VM listing fails outright. -/
def envListingFails : ScriptEnv :=
  ⟨"compute5", .error "connection refused", [],
   fun _ => ⟨[], [], []⟩, fun _ => envBecomesActive⟩

/-! ## Claims -/

/-- C1, counterexample: the code never removes the failed source host from
the `targets` set — only the `state == up` filter stands between it and
selection.  On a snapshot in which the failed host `compute5` still reports
state `up`, the groupless default branch returns `compute5` itself. -/
theorem groupless_default_returns_failed_host :
    getTargetHost "compute5" [flSmall] cloudFailedUp vmLoneC1 = some "compute5" := by
  decide

/-- C3, code-bug evidence: with both affinity members on the failed host and
no eligible host satisfying the group aggregate (4 vCPU against a 3-vCPU
host), `_get_target_host` does not return `None`: the first-mover loop finds
no fit, control falls through the `break`, and the final
`targets.keys()[0]` line — whose own comment says it is for VMs with no
affinity group — returns `compute1`, a host sized only for the single VM. -/
theorem affinity_aggregate_unmet_returns_fallback :
    getTargetHost "compute5" [flSmallPair] cloudTight vmTightA = some "compute1" := by
  decide

/-- C4, code-bug evidence: when a VM's status is first observed `ACTIVE` by
the fetch that ends the polling loop after the wait-timeout has elapsed, the
per-VM block appends neither a success nor a failure entry: the run's
result set records zero outcomes for that VM instead of exactly one. -/
theorem late_active_records_no_outcome :
    vmBlock envLateActive "vmA" "compute1" = ([], []) := by
  decide

/-- C7: when target selection yields no target, the loop iteration appends
exactly the no-target failure pair for that VM, leaves the issued-command
list unchanged, and the run continues with the remaining VMs. -/
theorem no_target_records_failure_without_command
    (sel : VM → Option String) (envOf : VM → VMEnv) (vm : VM)
    (res : Results) (cmds : List EvacCommand) (rest : List VM)
    (h : sel vm = none) :
    evacStep sel envOf (res, cmds) vm =
      ({ res with failures := res.failures ++ [(vm.name, "Failed to get a host.")] }, cmds) ∧
    runLoop sel envOf (vm :: rest) (res, cmds) =
      runLoop sel envOf rest (evacStep sel envOf (res, cmds) vm) := by
  constructor
  · simp [evacStep, h]
  · rfl

/-- C7 witness: instantiated on a concrete VM whose selection fails. -/
theorem no_target_records_failure_without_command_witness :
    (fun _ => none : VM → Option String) vmLoneC1 = none ∧
    (evacStep (fun _ => none) (fun _ => envBecomesActive) (⟨[], []⟩, []) vmLoneC1 =
      (⟨[], [("vmX", "Failed to get a host.")]⟩, []) ∧
     runLoop (fun _ => none) (fun _ => envBecomesActive) [vmLoneC1] (⟨[], []⟩, []) =
       runLoop (fun _ => none) (fun _ => envBecomesActive) []
         (evacStep (fun _ => none) (fun _ => envBecomesActive) (⟨[], []⟩, []) vmLoneC1)) :=
  ⟨rfl, no_target_records_failure_without_command
    (fun _ => none) (fun _ => envBecomesActive) vmLoneC1 ⟨[], []⟩ [] [] rfl⟩

/-- C8: if the initial enumeration of the failed host's VMs fails, the run
aborts with the fatal exit before any VM is processed: the result is the
`fatal` outcome, so no report is built and no move command is issued. -/
theorem vm_listing_failure_aborts_run (env : ScriptEnv) (e : String)
    (h : env.listVMs = Except.error e) :
    runFromListing env =
      ScriptResult.fatal
        ("Failed to list VMs for host " ++ env.compute_host ++ " :: " ++ e) := by
  simp [runFromListing, h]

/-- C8 witness: a concrete environment whose VM listing fails. -/
theorem vm_listing_failure_aborts_run_witness :
    envListingFails.listVMs = Except.error "connection refused" ∧
    runFromListing envListingFails =
      ScriptResult.fatal
        ("Failed to list VMs for host " ++ "compute5" ++ " :: " ++ "connection refused") :=
  ⟨rfl, vm_listing_failure_aborts_run envListingFails "connection refused" rfl⟩

/-- C9: any exception raised inside a VM's per-VM block — the move command,
the initial fetch, or the polling phase — yields exactly one failure entry
carrying the exception message (and no success entry), and the loop goes on
to the remaining VMs. -/
theorem vm_exception_recorded_and_loop_continues
    (env : VMEnv) (name target e : String)
    (sel : VM → Option String) (envOf : VM → VMEnv)
    (vm : VM) (rest : List VM) (acc : Results × List EvacCommand)
    (h : vmAttempt env = Except.error e) :
    vmBlock env name target = ([], [(name, e)]) ∧
    runLoop sel envOf (vm :: rest) acc =
      runLoop sel envOf rest (evacStep sel envOf acc vm) := by
  constructor
  · simp [vmBlock, h]
  · rfl

/-- C9 witness: a status lookup failing during the polling phase. -/
theorem vm_exception_recorded_and_loop_continues_witness :
    vmAttempt envPollRaises = Except.error "boom" ∧
    (vmBlock envPollRaises "vmA" "compute1" = ([], [("vmA", "boom")]) ∧
     runLoop (fun _ => none) (fun _ => envPollRaises) [vmLoneC1] (⟨[], []⟩, []) =
       runLoop (fun _ => none) (fun _ => envPollRaises) []
         (evacStep (fun _ => none) (fun _ => envPollRaises) (⟨[], []⟩, []) vmLoneC1)) :=
  ⟨rfl, vm_exception_recorded_and_loop_continues envPollRaises "vmA" "compute1" "boom"
    (fun _ => none) (fun _ => envPollRaises) vmLoneC1 [] (⟨[], []⟩, []) rfl⟩

/-- C10: every move command issued over a whole run carries
`on_shared_storage = true`, provided the starting accumulator does (in the
script it starts empty). -/
theorem commands_always_on_shared_storage
    (sel : VM → Option String) (envOf : VM → VMEnv) :
    ∀ (vms : List VM) (res : Results) (cmds : List EvacCommand),
      (∀ c ∈ cmds, c.onSharedStorage = true) →
      ∀ c ∈ (runLoop sel envOf vms (res, cmds)).2, c.onSharedStorage = true := by
  intro vms
  induction vms with
  | nil => intro res cmds hacc c hc; exact hacc c hc
  | cons vm rest ih =>
    intro res cmds hacc c hc
    have hstep : runLoop sel envOf (vm :: rest) (res, cmds) =
        runLoop sel envOf rest (evacStep sel envOf (res, cmds) vm) := rfl
    rw [hstep] at hc
    rcases hdec : evacStep sel envOf (res, cmds) vm with ⟨res', cmds'⟩
    rw [hdec] at hc
    refine ih res' cmds' ?_ c hc
    intro c' hc'
    have := evacStep_cmds sel envOf (res, cmds) vm c' (by rw [hdec]; exact hc')
    rcases this with h1 | h1
    · exact hacc c' h1
    · exact h1

/-- C1, amended: whenever the failed source host's hypervisor record does
not report state `up` in the snapshot — which the preceding service-down
check makes the expected situation, and which is the only mechanism the code
has for excluding it — every branch of `_get_target_host` that returns a
hostname returns one distinct from the failed host. -/
theorem target_ne_failed_host_of_failed_down
    (ch : String) (flavors : List Flavor) (c : Cloud) (vm : VM) (t : String)
    (hdown : ∀ h ∈ c.hypervisors, h.hypervisor_hostname = ch → h.state ≠ "up")
    (ht : getTargetHost ch flavors c vm = some t) :
    t ≠ ch := by
  unfold getTargetHost at ht
  cases hE : getTargetHostE ch flavors c vm with
  | error e => rw [hE] at ht; cases ht
  | ok r =>
    rw [hE] at ht
    dsimp only at ht
    unfold getTargetHostE at hE
    cases hT : buildTargets flavors vm c.hypervisors with
    | error e => rw [hT] at hE; cases hE
    | ok targets =>
      rw [hT] at hE
      dsimp only at hE
      have hkey : ∀ h ∈ targets, h.hypervisor_hostname ≠ ch := by
        intro h hm heq2
        rcases buildTargets_sub flavors vm c.hypervisors targets hT h hm with ⟨h1, h2⟩
        exact hdown h h1 heq2 h2
      have hdef : defaultTarget targets = some t → t ≠ ch := by
        intro hd
        cases targets with
        | nil => cases hd
        | cons h0 rest =>
          have hd2 : some h0.hypervisor_hostname = some t := hd
          injection hd2 with hinj
          rw [← hinj]
          exact hkey h0 (List.mem_cons_self _ _)
      cases hG : c.server_groups.find? (fun g => g.members.contains vm.id) with
      | none =>
        rw [hG] at hE
        dsimp only at hE
        injection hE with h1
        rw [h1, ht] at hdef
        exact hdef rfl
      | some g =>
        rw [hG] at hE
        dsimp only at hE
        cases hP : g.policies.head? with
        | none => rw [hP] at hE; cases hE
        | some p =>
          rw [hP] at hE
          dsimp only at hE
          by_cases hp : p = "affinity"
          · rw [if_pos hp] at hE
            cases hS : scanAffinity c.servers flavors g.members with
            | error e => rw [hS] at hE; cases hE
            | ok trip =>
              rw [hS] at hE
              rcases trip with ⟨chg, vcpus, memory⟩
              dsimp only at hE
              by_cases h2 : chg.length = 2
              · rw [if_pos h2] at hE
                injection hE with h1
                rw [← h1] at ht
                have hmem : t ∈ chg.filter (fun x => x != ch) :=
                  List.mem_of_mem_head? (Option.mem_def.mpr ht)
                have hpred := List.of_mem_filter hmem
                exact bne_iff_ne.mp hpred
              · rw [if_neg h2] at hE
                by_cases h1c : chg.length = 1
                · rw [if_pos h1c] at hE
                  cases hF : targets.find?
                      (fun h => decide (vcpus < h.vcpus) && decide (memory < h.memory_mb)) with
                  | some h =>
                    rw [hF] at hE
                    injection hE with h1
                    rw [← h1] at ht
                    injection ht with h3
                    rw [← h3]
                    exact hkey h (List.mem_of_find?_eq_some hF)
                  | none =>
                    rw [hF] at hE
                    injection hE with h1
                    rw [h1, ht] at hdef
                    exact hdef rfl
                · rw [if_neg h1c] at hE
                  injection hE with h1
                  rw [h1, ht] at hdef
                  exact hdef rfl
          · rw [if_neg hp] at hE
            by_cases hpa : p = "anti-affinity"
            · rw [if_pos hpa] at hE
              cases hA : antiHosts c.servers g.members with
              | error e => rw [hA] at hE; cases hE
              | ok hg =>
                rw [hA] at hE
                dsimp only at hE
                cases hF : targets.find? (fun h => !(hg.contains h.hypervisor_hostname)) with
                | some h =>
                  rw [hF] at hE
                  injection hE with h1
                  rw [← h1] at ht
                  injection ht with h3
                  rw [← h3]
                  exact hkey h (List.mem_of_find?_eq_some hF)
                | none =>
                  rw [hF] at hE
                  injection hE with h1
                  rw [← h1] at ht
                  cases ht
            · rw [if_neg hpa] at hE
              injection hE with h1
              rw [h1, ht] at hdef
              exact hdef rfl

/-- C1 witness for the amended claim: the failed host `compute5` reports
state `down`, and the groupless VM gets `compute1`, not `compute5`. -/
theorem target_ne_failed_host_of_failed_down_witness :
    ("compute1" : String) ≠ "compute5" :=
  target_ne_failed_host_of_failed_down "compute5" [flSmall]
    (Cloud.mk [⟨"x", "vmX", "f1", "compute5", "ACTIVE"⟩]
      [⟨"compute5", "down", 8, 16384⟩, ⟨"compute1", "up", 4, 8192⟩] [])
    ⟨"x", "vmX", "f1", "compute5", "ACTIVE"⟩ "compute1"
    (by decide) (by decide)

/-- C2: for the first member of an affinity group being moved (the members'
current hosts form a single host), whenever some target host's declared
capacity can accommodate the group's aggregate vCPU and memory — equality
included — `_get_target_host` returns a host from the `targets` set.  (When
the aggregate fits only non-strictly, the returned host comes from the final
fallback line rather than the aggregate loop, but it is still an eligible
host, and on the spec's Scenario 2 it is `compute1`.) -/
theorem affinity_first_mover_returns_eligible
    (ch : String) (flavors : List Flavor) (c : Cloud) (vm : VM) (g : ServerGroup)
    (targets : List Hypervisor) (chg : List String) (vc mem : Nat)
    (hT : buildTargets flavors vm c.hypervisors = Except.ok targets)
    (hG : c.server_groups.find? (fun g => g.members.contains vm.id) = some g)
    (hP : g.policies.head? = some "affinity")
    (hS : scanAffinity c.servers flavors g.members = Except.ok (chg, vc, mem))
    (hC : chg.length = 1)
    (hy : Hypervisor) (hymem : hy ∈ targets)
    (hycap : vc ≤ hy.vcpus ∧ mem ≤ hy.memory_mb) :
    ∃ t, getTargetHost ch flavors c vm = some t ∧
      ∃ h2 ∈ targets, h2.hypervisor_hostname = t := by
  have hE : getTargetHostE ch flavors c vm =
      match targets.find?
          (fun h => decide (vc < h.vcpus) && decide (mem < h.memory_mb)) with
      | some h => Except.ok (some h.hypervisor_hostname)
      | none => Except.ok (defaultTarget targets) := by
    unfold getTargetHostE
    simp only [hT, hG, hP, hS, hC]
    norm_num
  unfold getTargetHost
  rw [hE]
  cases hF : targets.find?
      (fun h => decide (vc < h.vcpus) && decide (mem < h.memory_mb)) with
  | some h =>
    exact ⟨h.hypervisor_hostname, rfl, h, List.mem_of_find?_eq_some hF, rfl⟩
  | none =>
    cases targets with
    | nil => cases hymem
    | cons h0 rest =>
      exact ⟨h0.hypervisor_hostname, rfl, h0, List.mem_cons_self _ _, rfl⟩

/-- C2 witness: the spec's Scenario 2, first call — group aggregate
4 vCPU / 8192 MB exactly equals the sole eligible host `compute1`. -/
theorem affinity_first_mover_returns_eligible_witness :
    ∃ t, getTargetHost "compute5" [flPair] cloudScenario2 vmAffA = some t ∧
      ∃ h2 ∈ [Hypervisor.mk "compute1" "up" 4 8192], h2.hypervisor_hostname = t :=
  affinity_first_mover_returns_eligible "compute5" [flPair] cloudScenario2 vmAffA
    ⟨"g1", ["affinity"], ["a", "b"]⟩ [⟨"compute1", "up", 4, 8192⟩]
    ["compute5"] 4 8192 rfl rfl rfl rfl rfl
    ⟨"compute1", "up", 4, 8192⟩ (by decide) (by decide)

/-- C5: once an affinity group's members sit on exactly two distinct hosts,
one of them the failed source host, `_get_target_host` returns the other
host directly, with no capacity or eligible-set condition on that host at
all (the witness even uses a host absent from the hypervisor listing). -/
theorem affinity_two_hosts_follows_first_mover
    (ch H : String) (flavors : List Flavor) (c : Cloud) (vm : VM) (g : ServerGroup)
    (targets : List Hypervisor) (chg : List String) (vc mem : Nat)
    (hT : buildTargets flavors vm c.hypervisors = Except.ok targets)
    (hG : c.server_groups.find? (fun g => g.members.contains vm.id) = some g)
    (hP : g.policies.head? = some "affinity")
    (hS : scanAffinity c.servers flavors g.members = Except.ok (chg, vc, mem))
    (hlen : chg.length = 2) (hch : ch ∈ chg) (hH : H ∈ chg) (hne : H ≠ ch) :
    getTargetHost ch flavors c vm = some H := by
  obtain ⟨a, b, rfl⟩ : ∃ a b, chg = [a, b] := by
    cases chg with
    | nil => simp at hlen
    | cons a t =>
      cases t with
      | nil => simp at hlen
      | cons b t2 =>
        cases t2 with
        | nil => exact ⟨a, b, rfl⟩
        | cons c3 t3 => simp at hlen
  have hfilter : List.filter (fun x => x != ch) [a, b] = [H] := by
    rcases List.mem_pair.mp hch with h1 | h1 <;>
      rcases List.mem_pair.mp hH with h2 | h2 <;> subst_vars
    · exact absurd rfl hne
    · have hb := beq_eq_false_iff_ne.mpr hne
      simp [List.filter, bne, hb]
    · have hb := beq_eq_false_iff_ne.mpr hne
      simp [List.filter, bne, hb]
    · exact absurd rfl hne
  unfold getTargetHost getTargetHostE
  simp only [hT, hG, hP, hS, hlen]
  simp [hfilter]

/-- C5 witness: second member still on failed `compute5` while the first
mover sits on `c9`, a host that is not even in the hypervisor listing (so
certainly not in the eligible set): the call still returns `c9`. -/
theorem affinity_two_hosts_follows_first_mover_witness :
    getTargetHost "compute5" [flPair]
      (Cloud.mk [⟨"a", "vmA", "fA", "c9", "ACTIVE"⟩, ⟨"b", "vmB", "fA", "compute5", "ACTIVE"⟩]
        [⟨"compute1", "up", 4, 8192⟩] [⟨"g1", ["affinity"], ["a", "b"]⟩])
      ⟨"b", "vmB", "fA", "compute5", "ACTIVE"⟩ = some "c9" :=
  affinity_two_hosts_follows_first_mover "compute5" "c9" [flPair]
    (Cloud.mk [⟨"a", "vmA", "fA", "c9", "ACTIVE"⟩, ⟨"b", "vmB", "fA", "compute5", "ACTIVE"⟩]
      [⟨"compute1", "up", 4, 8192⟩] [⟨"g1", ["affinity"], ["a", "b"]⟩])
    ⟨"b", "vmB", "fA", "compute5", "ACTIVE"⟩
    ⟨"g1", ["affinity"], ["a", "b"]⟩ [⟨"compute1", "up", 4, 8192⟩]
    ["c9", "compute5"] 4 8192
    rfl rfl rfl rfl rfl (by decide) (by decide) (by decide)

/-- C6: for a VM in an anti-affinity group, `_get_target_host` returns
exactly the first host of the `targets` set not currently occupied by any
group member (so `None` when every target is occupied); consequently any
returned target differs from the current host of every group member found in
the server listing — so with a fresh snapshot in which an already-moved
member sits on its new host, no later member can receive that host again. -/
theorem anti_affinity_first_free_eligible
    (ch : String) (flavors : List Flavor) (c : Cloud) (vm : VM) (g : ServerGroup)
    (targets : List Hypervisor) (hg : List String)
    (hT : buildTargets flavors vm c.hypervisors = Except.ok targets)
    (hG : c.server_groups.find? (fun g => g.members.contains vm.id) = some g)
    (hP : g.policies.head? = some "anti-affinity")
    (hH : antiHosts c.servers g.members = Except.ok hg) :
    getTargetHost ch flavors c vm =
      (targets.find? (fun h => !(hg.contains h.hypervisor_hostname))).map
        (fun h => h.hypervisor_hostname) ∧
    ∀ t, getTargetHost ch flavors c vm = some t →
      ∀ m ∈ g.members, ∀ v, findVM c.servers m = some v → t ≠ v.hostname := by
  have hmain : getTargetHost ch flavors c vm =
      (targets.find? (fun h => !(hg.contains h.hypervisor_hostname))).map
        (fun h => h.hypervisor_hostname) := by
    unfold getTargetHost getTargetHostE
    simp only [hT, hG, hP, hH]
    cases hF : targets.find? (fun h => !(hg.contains h.hypervisor_hostname)) <;> simp [hF]
  refine ⟨hmain, ?_⟩
  intro t ht m hm v hv heq
  rw [hmain] at ht
  cases hF : targets.find? (fun h => !(hg.contains h.hypervisor_hostname)) with
  | none => rw [hF] at ht; cases ht
  | some h =>
    rw [hF] at ht
    have hpred := List.find?_some hF
    have hth : t = h.hypervisor_hostname := by
      simpa using ht.symm
    have hvmem : v.hostname ∈ hg := antiHosts_mem c.servers g.members hg hH m hm v hv
    rw [heq] at hth
    rw [hth] at hvmem
    simp at hpred
    exact hpred hvmem

/-- C6 witness: second anti-affinity member evaluated after the first moved
to `compute1`: the characterization yields `compute2`, and the avoidance
part rules out `compute1`. -/
theorem anti_affinity_first_free_eligible_witness :
    (getTargetHost "compute5" [flSmall]
        (Cloud.mk [⟨"a", "vmA", "f1", "compute1", "ACTIVE"⟩, ⟨"b", "vmB", "f1", "compute5", "ACTIVE"⟩]
          [⟨"compute1", "up", 8, 16384⟩, ⟨"compute2", "up", 8, 16384⟩]
          [⟨"g2", ["anti-affinity"], ["a", "b"]⟩])
        ⟨"b", "vmB", "f1", "compute5", "ACTIVE"⟩ =
      ([⟨"compute1", "up", 8, 16384⟩, (⟨"compute2", "up", 8, 16384⟩ : Hypervisor)].find?
          (fun h => !(["compute1", "compute5"].contains h.hypervisor_hostname))).map
        (fun h => h.hypervisor_hostname)) ∧
    ∀ t, getTargetHost "compute5" [flSmall]
        (Cloud.mk [⟨"a", "vmA", "f1", "compute1", "ACTIVE"⟩, ⟨"b", "vmB", "f1", "compute5", "ACTIVE"⟩]
          [⟨"compute1", "up", 8, 16384⟩, ⟨"compute2", "up", 8, 16384⟩]
          [⟨"g2", ["anti-affinity"], ["a", "b"]⟩])
        ⟨"b", "vmB", "f1", "compute5", "ACTIVE"⟩ = some t →
      ∀ m ∈ (ServerGroup.mk "g2" ["anti-affinity"] ["a", "b"]).members,
        ∀ v, findVM [⟨"a", "vmA", "f1", "compute1", "ACTIVE"⟩,
            (⟨"b", "vmB", "f1", "compute5", "ACTIVE"⟩ : VM)] m = some v →
          t ≠ v.hostname :=
  anti_affinity_first_free_eligible "compute5" [flSmall]
    (Cloud.mk [⟨"a", "vmA", "f1", "compute1", "ACTIVE"⟩, ⟨"b", "vmB", "f1", "compute5", "ACTIVE"⟩]
      [⟨"compute1", "up", 8, 16384⟩, ⟨"compute2", "up", 8, 16384⟩]
      [⟨"g2", ["anti-affinity"], ["a", "b"]⟩])
    ⟨"b", "vmB", "f1", "compute5", "ACTIVE"⟩
    ⟨"g2", ["anti-affinity"], ["a", "b"]⟩
    [⟨"compute1", "up", 8, 16384⟩, ⟨"compute2", "up", 8, 16384⟩]
    ["compute1", "compute5"]
    rfl rfl rfl rfl

/-- C10 witness: a one-VM run in which a command is actually issued. -/
theorem commands_always_on_shared_storage_witness :
    (EvacCommand.mk "x" "compute1" true).onSharedStorage = true :=
  commands_always_on_shared_storage
    (fun _ => some "compute1") (fun _ => envBecomesActive) [vmLoneC1] ⟨[], []⟩ []
    (by intro c hc; cases hc)
    (EvacCommand.mk "x" "compute1" true) (by decide)
